import Mathlib

/-!
Verification of the 3D photo-wall synchronization core.

Shallow embedding of the stable-slot assignment engine
(`src/hooks/usePhotoPositions.ts`), the collage store with its realtime /
polling reconciliation (`src/store/collageStore.ts`), the texture cache
(`src/lib/textureCache.ts`) and the position generator of the collage scene
component.  JavaScript `Map` / `Set` objects are rendered as association
lists and duplicate-free lists, `Math.random()` streams as explicit `Nat → _`
parameters, and timestamps as natural numbers.
-/

/-! ### JavaScript container helpers -/

/-- `Map.prototype.set`: replace the value in place when the key is present,
append a fresh entry otherwise (JS `Map` keeps insertion order). -/
def mapSet {β : Type} (m : List (String × β)) (k : String) (v : β) :
    List (String × β) :=
  if (m.lookup k).isSome then
    m.map (fun e => if e.1 = k then (k, v) else e)
  else
    m ++ [(k, v)]

/-- `Set.prototype.add` on a duplicate-free list. -/
def addSet (s : List Nat) (x : Nat) : List Nat :=
  if s.contains x then s else s ++ [x]

/-- `Set.prototype.delete` on a duplicate-free list. -/
def delSet (s : List Nat) (x : Nat) : List Nat :=
  s.filter (fun y => y ≠ x)

/-- Stable insertion of `x` after every element `y` with `le y x`; together
with `jsSortStable` this renders `Array.prototype.sort`, which is required
to be stable by the ECMAScript specification. -/
def sortedInsert {α : Type} (le : α → α → Bool) (x : α) : List α → List α
  | [] => [x]
  | y :: ys => if le y x then y :: sortedInsert le x ys else x :: y :: ys

/-- Stable sort used as the model of `Array.prototype.sort(comparator)`,
with `le a b` meaning `comparator(a, b) <= 0`. -/
def jsSortStable {α : Type} (le : α → α → Bool) (l : List α) : List α :=
  l.foldl (fun acc x => sortedInsert le x acc) []

/-! ### Slot manager (`src/hooks/usePhotoPositions.ts`) -/

/-- The `Photo` record of `usePhotoPositions.ts`; `created_at` is an optional
timestamp, modelled by the parsed numeric time `new Date(_).getTime()`. -/
structure Photo where
  id : String
  url : String
  collage_id : Option String
  created_at : Option Nat
deriving DecidableEq, Repr

/-- State of the `SlotManager` class: `slotAssignments` is the
`photoId -> slotIndex` map, `occupiedSlots` the `Set<number>` of taken slots,
`availableSlots` the shuffled pool of free slots. -/
structure SlotManager where
  slotAssignments : List (String × Nat)
  occupiedSlots : List Nat
  availableSlots : List Nat
  totalSlots : Nat
deriving DecidableEq, Repr

/-- One simultaneous swap `[a[i], a[j]] = [a[j], a[i]]`. -/
def swapElems (l : List Nat) (i j : Nat) : List Nat :=
  (l.set i (l.getD j 0)).set j (l.getD i 0)

/-- The Fisher–Yates loop of `SlotManager.shuffleArray`, running the index
`i` downwards; `rand i` stands for the `Math.random()` draw at index `i`,
so the swap partner is `rand i % (i+1)` (the code's
`Math.floor(Math.random() * (i + 1))`). -/
def fisherYatesAux (rand : Nat → Nat) : Nat → List Nat → List Nat
  | 0, l => l
  | i + 1, l => fisherYatesAux rand i (swapElems l (i + 1) (rand (i + 1) % (i + 2)))

/-- `SlotManager.shuffleArray`, parameterised by the random stream. -/
def shuffleArray (rand : Nat → Nat) (l : List Nat) : List Nat :=
  fisherYatesAux rand (l.length - 1) l

/-- `SlotManager.rebuildAvailableSlots`: collect the slots of
`[0, totalSlots)` missing from `occupiedSlots`, then shuffle them. -/
def rebuildAvailableSlots (rand : Nat → Nat) (st : SlotManager) : SlotManager :=
  { st with availableSlots := shuffleArray rand ((List.range st.totalSlots).filter
      (fun i => ¬ st.occupiedSlots.contains i)) }

/-- `SlotManager.updateSlotCount`: early return when the count is unchanged;
otherwise every assignment whose `slotIndex >= newTotal` is deleted from both
the assignment map and the occupied set (the source iterates the entries and
deletes them one by one, which amounts to the two filters below), and the
available pool is rebuilt. -/
def updateSlotCount (newTotal : Nat) (rand : Nat → Nat) (st : SlotManager) :
    SlotManager :=
  if newTotal = st.totalSlots then st
  else
    rebuildAvailableSlots rand
      { st with
        totalSlots := newTotal,
        slotAssignments := st.slotAssignments.filter (fun e => e.2 < newTotal),
        occupiedSlots := st.occupiedSlots.filter (fun s =>
          ¬ ((st.slotAssignments.filter (fun e => ¬ e.2 < newTotal)).map
              Prod.snd).contains s) }

/-- First phase of `SlotManager.assignSlots`: every assignment whose photo id
is not among `currentPhotoIds` is deleted from the assignment map and its
slot from the occupied set (again the entry-deletion loop of the source,
rendered as filters). -/
def dropMissingPhotos (currentPhotoIds : List String) (st : SlotManager) :
    SlotManager :=
  { st with
    slotAssignments := st.slotAssignments.filter (fun e =>
      currentPhotoIds.contains e.1),
    occupiedSlots := st.occupiedSlots.filter (fun s =>
      ¬ ((st.slotAssignments.filter (fun e =>
            ¬ currentPhotoIds.contains e.1)).map Prod.snd).contains s) }

/-- Code-unit-wise string comparison, the model of
`a.localeCompare(b) <= 0`. -/
def strLECore : List Char → List Char → Bool
  | [], _ => true
  | _ :: _, [] => false
  | a :: as, b :: bs =>
    if a.toNat < b.toNat then true
    else if b.toNat < a.toNat then false
    else strLECore as bs

/-- Lexicographic string order on the underlying character sequences. -/
def strLE (a b : String) : Bool :=
  strLECore a.data b.data

/-- The sort comparator of `assignSlots` as a boolean `comparator(a,b) <= 0`:
when both photos carry `created_at` it compares the parsed times, otherwise
it falls back to `a.id.localeCompare(b.id)`. -/
def photoCompareLE (a b : Photo) : Bool :=
  match a.created_at, b.created_at with
  | some ta, some tb => ta ≤ tb
  | _, _ => strLE a.id b.id

/-- The body of the assignment loop of `assignSlots`: a photo that holds no
slot yet pops the front of `availableSlots` (`shift()`), records it in the
assignment map and marks it occupied. -/
def assignStep (st : SlotManager) (photo : Photo) : SlotManager :=
  match st.availableSlots with
  | [] => st
  | slotIndex :: rest =>
    if (st.slotAssignments.lookup photo.id).isSome then st
    else
      { st with
        slotAssignments := st.slotAssignments ++ [(photo.id, slotIndex)],
        occupiedSlots := addSet st.occupiedSlots slotIndex,
        availableSlots := rest }

/-- The state `assignSlots` reaches right before its assignment loop: stale
assignments dropped and the free pool rebuilt. -/
def assignPrep (photos : List Photo) (rand : Nat → Nat) (st : SlotManager) :
    SlotManager :=
  rebuildAvailableSlots rand
    (dropMissingPhotos ((photos.filter (fun p => p.id ≠ "")).map Photo.id) st)

/-- `SlotManager.assignSlots`: filter out falsy photos/ids, drop assignments
of vanished photos, rebuild the free pool, sort by creation time (oldest
first) and hand one free slot to each photo not yet assigned.  The returned
state's `slotAssignments` is the map the method returns. -/
def assignSlots (photos : List Photo) (rand : Nat → Nat) (st : SlotManager) :
    SlotManager :=
  (jsSortStable photoCompareLE (photos.filter (fun p => p.id ≠ ""))).foldl
    assignStep (assignPrep photos rand st)

/-- The `SlotManager(totalSlots)` constructor: fields start empty with
`totalSlots = 0`, then `updateSlotCount(totalSlots)` runs. -/
def mkSlotManager (totalSlots : Nat) (rand : Nat → Nat) : SlotManager :=
  updateSlotCount totalSlots rand
    { slotAssignments := [], occupiedSlots := [], availableSlots := [],
      totalSlots := 0 }

/-- A call history against one `SlotManager`: each `assignSlots` call carries
its photo list and its `Math.random()` stream, each `updateSlotCount` call its
new count and stream. -/
inductive SlotOp
  | assign (photos : List Photo) (rand : Nat → Nat)
  | setCount (n : Nat) (rand : Nat → Nat)

/-- Run one recorded call. -/
def applySlotOp (st : SlotManager) : SlotOp → SlotManager
  | .assign photos rand => assignSlots photos rand st
  | .setCount n rand => updateSlotCount n rand st

/-- A sequence of `assignSlots` calls (photo list and random stream each). -/
def applyAssignCalls (calls : List (List Photo × (Nat → Nat)))
    (st : SlotManager) : SlotManager :=
  calls.foldl (fun s c => assignSlots c.1 c.2 s) st

/-- The comparator that claim C8's wording describes (created_at ascending,
id lexical order as the tie-break), used only to compare the source's
behaviour against the claim. -/
def specOrderLE (a b : Photo) : Bool :=
  match a.created_at, b.created_at with
  | some ta, some tb => if ta = tb then strLE a.id b.id else ta ≤ tb
  | _, _ => strLE a.id b.id

/-- `assignSlots` with the assignment order replaced by the order claim C8
states (tie-break by id even between equal timestamps); diverges from the
source exactly where the claim does. -/
def assignSlotsSpecOrder (photos : List Photo) (rand : Nat → Nat)
    (st : SlotManager) : SlotManager :=
  (jsSortStable specOrderLE (photos.filter (fun p => p.id ≠ ""))).foldl
    assignStep (assignPrep photos rand st)

/-! ### Collage store (`src/store/collageStore.ts`) -/

/-- The `Photo` interface of `collageStore.ts` (all fields required there). -/
structure StorePhoto where
  id : String
  collage_id : String
  url : String
  created_at : Nat
deriving DecidableEq, Repr

/-- The `PhotoState` record: `byId` is the `Map<string, Photo>`, `allIds`
keeps insertion order (most recent first), `lastUpdated` a `Date.now()`
stamp.  Wall-clock reads are threaded through the operations as an explicit
`now` argument. -/
structure PhotoState where
  byId : List (String × StorePhoto)
  allIds : List String
  lastUpdated : Nat
deriving DecidableEq, Repr

/-- The store's initial `photoState`. -/
def initialPhotoState : PhotoState :=
  { byId := [], allIds := [], lastUpdated := 0 }

/-- `addPhotoToState`: no-op when the id is already present, otherwise the
photo is stored and its id prepended to `allIds` (most recent first). -/
def addPhotoToState (photo : StorePhoto) (now : Nat) (st : PhotoState) :
    PhotoState :=
  if (st.byId.lookup photo.id).isSome then st
  else
    { byId := mapSet st.byId photo.id photo,
      allIds := photo.id :: st.allIds,
      lastUpdated := now }

/-- `removePhotoFromState`: no-op when absent, otherwise the photo leaves
`byId` and its id is filtered out of `allIds`. -/
def removePhotoFromState (photoId : String) (now : Nat) (st : PhotoState) :
    PhotoState :=
  if (st.byId.lookup photoId).isSome then
    { byId := st.byId.filter (fun e => e.1 ≠ photoId),
      allIds := st.allIds.filter (fun i => i ≠ photoId),
      lastUpdated := now }
  else st

/-- `updatePhotosFromArray`: write every snapshot photo into a copy of
`byId`, rebuild `allIds` from the snapshot order, then delete the ids that
the snapshot no longer contains. -/
def updatePhotosFromArray (photos : List StorePhoto) (now : Nat)
    (st : PhotoState) : PhotoState :=
  let newById := photos.foldl (fun m p => mapSet m p.id p) st.byId
  let newAllIds := photos.map StorePhoto.id
  let deletedIds := st.allIds.filter (fun i => ¬ newAllIds.contains i)
  { byId := deletedIds.foldl (fun m i => m.filter (fun e => e.1 ≠ i)) newById,
    allIds := newAllIds,
    lastUpdated := now }

/-- One tick of the `startPolling` interval after a successful snapshot
fetch: compare id lists (length first, then membership of each snapshot id)
and call `updatePhotosFromArray` only when a change is detected. -/
def pollTick (snapshot : List StorePhoto) (now : Nat) (st : PhotoState) :
    PhotoState :=
  let currentIds := st.allIds
  let newIds := snapshot.map StorePhoto.id
  if currentIds.length ≠ newIds.length then
    updatePhotosFromArray snapshot now st
  else if newIds.any (fun i => ¬ currentIds.contains i) then
    updatePhotosFromArray snapshot now st
  else st

/-- The `postgres_changes` payloads the realtime callback dispatches on. -/
inductive RealtimeEvent
  | INSERT (p : StorePhoto)
  | DELETE (id : String)
  | UPDATE (p : StorePhoto)
deriving DecidableEq, Repr

/-- The realtime callback of `setupRealtimeSubscription`: INSERT and UPDATE
both call `addPhotoToState(payload.new)`, DELETE calls
`removePhotoFromState(payload.old.id)`. -/
def handleRealtimeEvent (e : RealtimeEvent) (now : Nat) (st : PhotoState) :
    PhotoState :=
  match e with
  | .INSERT p => addPhotoToState p now st
  | .DELETE i => removePhotoFromState i now st
  | .UPDATE p => addPhotoToState p now st

/-! ### Sync session (`setupRealtimeSubscription` / polling fallback) -/

/-- The subscription status values the `.subscribe` callback switches on. -/
inductive SubStatus
  | SUBSCRIBED
  | CHANNEL_ERROR
  | TIMED_OUT
  | CLOSED
deriving DecidableEq, Repr

/-- The connection-related slice of the store: the `isRealtimeConnected`
flag and the `pollingInterval` timer handle (timer ids drawn from a
counter). -/
structure SessionState where
  isRealtimeConnected : Bool
  pollingInterval : Option Nat
  nextTimerId : Nat
deriving DecidableEq, Repr

/-- The store's initial connection state. -/
def initSession : SessionState :=
  { isRealtimeConnected := false, pollingInterval := none, nextTimerId := 0 }

/-- `stopPolling`: clear the interval when one is active. -/
def stopPolling (st : SessionState) : SessionState :=
  match st.pollingInterval with
  | some _ => { st with pollingInterval := none }
  | none => st

/-- `startPolling`: stop any running interval, then install a fresh one. -/
def startPolling (st : SessionState) : SessionState :=
  let st1 := stopPolling st
  { st1 with pollingInterval := some st1.nextTimerId,
             nextTimerId := st1.nextTimerId + 1 }

/-- The `.subscribe((status) => ...)` callback: `SUBSCRIBED` marks the
session live and stops polling; `CHANNEL_ERROR` / `TIMED_OUT` mark it down
and start the polling fallback; `CLOSED` only clears the flag. -/
def onSubscribeStatus (s : SubStatus) (st : SessionState) : SessionState :=
  match s with
  | .SUBSCRIBED => stopPolling { st with isRealtimeConnected := true }
  | .CHANNEL_ERROR => startPolling { st with isRealtimeConnected := false }
  | .TIMED_OUT => startPolling { st with isRealtimeConnected := false }
  | .CLOSED => { st with isRealtimeConnected := false }

/-- The 5-second `setTimeout` fallback of `setupRealtimeSubscription`:
start polling only when realtime has not confirmed yet. -/
def onRealtimeTimeout (st : SessionState) : SessionState :=
  if st.isRealtimeConnected then st else startPolling st

/-- `cleanupRealtimeSubscription`: drop the channel (clearing the connected
flag) and stop polling. -/
def cleanupRealtimeSubscription (st : SessionState) : SessionState :=
  stopPolling { st with isRealtimeConnected := false }

/-- Asynchronous happenings that touch the connection state. -/
inductive SessionEvent
  | status (s : SubStatus)
  | timeoutFire
  | cleanup
deriving DecidableEq, Repr

/-- Dispatch one event on the single-threaded event loop. -/
def stepSession (st : SessionState) (e : SessionEvent) : SessionState :=
  match e with
  | .status s => onSubscribeStatus s st
  | .timeoutFire => onRealtimeTimeout st
  | .cleanup => cleanupRealtimeSubscription st

/-! ### Texture cache (`src/lib/textureCache.ts`) -/

/-- What a `getTexture` caller receives: either an already-resolved promise
carrying the cached texture, or an in-flight loading promise identified by
its id.  Textures and promises are identified by numeric ids since only
instance identity matters to the claims. -/
inductive GetResult
  | resolved (texture : Nat)
  | promise (pid : Nat)
deriving DecidableEq, Repr

/-- State of the `TextureCache` singleton: `cache` is the
`Map<string, Texture>`, `loadingPromises` the `Map<string, Promise>`.
`nextPromiseId` mints promise identities, `fetchesStarted` logs every
`loader.load` invocation, and `resolvedWith` / `rejectedIds` record how
promises settled so that what the waiters observe is part of the state. -/
structure TextureCacheState where
  cache : List (String × Nat)
  loadingPromises : List (String × Nat)
  nextPromiseId : Nat
  fetchesStarted : List String
  resolvedWith : List (Nat × Nat)
  rejectedIds : List Nat
deriving DecidableEq, Repr

/-- A texture cache with nothing loaded or loading. -/
def emptyTextureCache : TextureCacheState :=
  { cache := [], loadingPromises := [], nextPromiseId := 0,
    fetchesStarted := [], resolvedWith := [], rejectedIds := [] }

/-- `TextureCache.getTexture(url)`: a cached texture resolves immediately;
an in-flight promise is returned as-is; otherwise a fresh promise is minted,
the fetch is started (logged in `fetchesStarted`) and the promise is stored
in `loadingPromises`. -/
def getTexture (url : String) (c : TextureCacheState) :
    GetResult × TextureCacheState :=
  match c.cache.lookup url with
  | some t => (.resolved t, c)
  | none =>
    match c.loadingPromises.lookup url with
    | some p => (.promise p, c)
    | none =>
      (.promise c.nextPromiseId,
       { c with
         loadingPromises := c.loadingPromises ++ [(url, c.nextPromiseId)],
         nextPromiseId := c.nextPromiseId + 1,
         fetchesStarted := c.fetchesStarted ++ [url] })

/-- The success callback of the loader for the fetch belonging to promise
`pid`: cache the texture, delete the loading entry, resolve the promise. -/
def completeLoad (url : String) (pid : Nat) (texture : Nat)
    (c : TextureCacheState) : TextureCacheState :=
  { c with
    cache := mapSet c.cache url texture,
    loadingPromises := c.loadingPromises.filter (fun e => e.1 ≠ url),
    resolvedWith := c.resolvedWith ++ [(pid, texture)] }

/-- The error callback of the loader for the fetch belonging to promise
`pid`: delete the loading entry and reject the promise. -/
def failLoad (url : String) (pid : Nat) (c : TextureCacheState) :
    TextureCacheState :=
  { c with
    loadingPromises := c.loadingPromises.filter (fun e => e.1 ≠ url),
    rejectedIds := c.rejectedIds ++ [pid] }

/-- `n` back-to-back `getTexture(url)` calls on the event loop (no loader
callback runs in between), collecting what each caller receives. -/
def acquireSeq (url : String) : Nat → TextureCacheState →
    List GetResult × TextureCacheState
  | 0, c => ([], c)
  | n + 1, c =>
    let r := getTexture url c
    let rs := acquireSeq url n r.2
    (r.1 :: rs.1, rs.2)

/-! ### Position generator (`CollageScene`'s `photoPositions` memo) -/

/-- A triple of JS numbers, modelled over `ℚ`. -/
structure Vec3 where
  x : ℚ
  y : ℚ
  z : ℚ
deriving DecidableEq, Repr

/-- One entry of the `positions` array built by the `photoPositions` memo. -/
structure PosEntry where
  x : ℚ
  y : ℚ
  z : ℚ
  rot : Vec3
  scale : Vec3
deriving DecidableEq, Repr

/-- The per-pattern parameter objects of `settings.patterns`. -/
structure GridPattern where
  wallHeight : ℚ
deriving DecidableEq, Repr

/-- Spiral pattern parameters. -/
structure SpiralPattern where
  radius : ℚ
  heightStep : ℚ
deriving DecidableEq, Repr

/-- Wave pattern parameters. -/
structure WavePattern where
  frequency : ℚ
  amplitude : ℚ
deriving DecidableEq, Repr

/-- Float pattern parameters. -/
structure FloatPattern where
  spread : ℚ
  height : ℚ
deriving DecidableEq, Repr

/-- The optional `settings.patterns` object. -/
structure PatternsConfig where
  grid : Option GridPattern
  spiral : Option SpiralPattern
  wave : Option WavePattern
  float : Option FloatPattern
deriving DecidableEq, Repr

/-- The slice of `CollageSettings` the `photoPositions` memo reads. -/
structure SceneSettings where
  photoCount : Nat
  gridAspect : ℚ
  photoSpacing : ℚ
  photoSize : ℚ
  animationPattern : String
  patterns : Option PatternsConfig
deriving DecidableEq, Repr

/-- JavaScript `v || d` on an optionally-present number: `undefined` and the
falsy number `0` both yield the default. -/
def jsOrQ (v : Option ℚ) (d : ℚ) : ℚ :=
  match v with
  | some x => if x = 0 then d else x
  | none => d

/-- The opaque `Math` functions the memo calls; JavaScript guarantees each is
a fixed pure function, so they are threaded as one explicit record. -/
structure MathFns where
  cos : ℚ → ℚ
  sin : ℚ → ℚ
  sqrt : ℚ → ℚ
  pi : ℚ

/-- `Math.ceil` landing in a loop bound. -/
def jsCeilToNat (q : ℚ) : Nat :=
  q.ceil.toNat

/-- One grid-position entry (shared by the `grid` case and the default
fallback, which differ only in the wall height term). -/
def gridEntry (s : SceneSettings) (cols rows : Nat) (y : ℚ) (i : Nat) :
    PosEntry :=
  { x := ((i % cols : Nat) - ((cols : ℚ) - 1) / 2) * (s.photoSize + s.photoSpacing),
    y := y,
    z := ((i / cols : Nat) - ((rows : ℚ) - 1) / 2) * (s.photoSize + s.photoSpacing),
    rot := { x := 0, y := 0, z := 0 },
    scale := { x := 1, y := 1, z := 1 } }

/-- One `spiral` entry. -/
def spiralEntry (m : MathFns) (sp : Option SpiralPattern) (photoCount i : Nat) :
    PosEntry :=
  let angle : ℚ := i * (1 / 2)
  let radius : ℚ :=
    jsOrQ (sp.map SpiralPattern.radius) 15 * m.sqrt ((i : ℚ) / photoCount)
  { x := radius * m.cos angle,
    y := i * jsOrQ (sp.map SpiralPattern.heightStep) (1 / 2),
    z := radius * m.sin angle,
    rot := { x := 0, y := angle, z := 0 },
    scale := { x := 1, y := 1, z := 1 } }

/-- One `wave` entry. -/
def waveEntry (m : MathFns) (waveFreq waveAmp : ℚ) (photoCount i : Nat) :
    PosEntry :=
  let t : ℚ := (i : ℚ) / photoCount
  { x := (t - 1 / 2) * 40,
    y := m.sin (t * m.pi * 2 * waveFreq) * waveAmp,
    z := m.cos (t * m.pi * 2 * waveFreq) * waveAmp * (1 / 2),
    rot := { x := 0, y := t * m.pi, z := 0 },
    scale := { x := 1, y := 1, z := 1 } }

/-- One `float` entry; the eight `Math.random()` draws of iteration `i` are
`rand (8*i) .. rand (8*i+7)` in source order (position x y z, rotation x y z,
scale x y). -/
def floatEntry (m : MathFns) (spread height : ℚ) (rand : Nat → ℚ) (i : Nat) :
    PosEntry :=
  { x := (rand (8 * i) - 1 / 2) * spread,
    y := rand (8 * i + 1) * height,
    z := (rand (8 * i + 2) - 1 / 2) * spread,
    rot := { x := (rand (8 * i + 3) - 1 / 2) * (1 / 2),
             y := rand (8 * i + 4) * m.pi * 2,
             z := (rand (8 * i + 5) - 1 / 2) * (1 / 2) },
    scale := { x := 4 / 5 + rand (8 * i + 6) * (2 / 5),
               y := 4 / 5 + rand (8 * i + 7) * (2 / 5),
               z := 1 } }

/-- The `photoPositions` `useMemo` body: switch on `animationPattern` and
build one entry per slot index `i < photoCount`.  `m` carries the `Math`
functions and `rand` the ambient `Math.random()` stream (consumed only by
the `float` case). -/
def photoPositions (s : SceneSettings) (m : MathFns) (rand : Nat → ℚ) :
    List PosEntry :=
  if s.animationPattern = "grid" then
    let cols := jsCeilToNat (m.sqrt ((s.photoCount : ℚ) * s.gridAspect))
    let rows := jsCeilToNat ((s.photoCount : ℚ) / (cols : ℚ))
    let y := jsOrQ ((s.patterns.bind PatternsConfig.grid).map GridPattern.wallHeight) 0
    (List.range s.photoCount).map (gridEntry s cols rows y)
  else if s.animationPattern = "spiral" then
    (List.range s.photoCount).map
      (spiralEntry m (s.patterns.bind PatternsConfig.spiral) s.photoCount)
  else if s.animationPattern = "wave" then
    let wavePattern := s.patterns.bind PatternsConfig.wave
    let waveFreq := jsOrQ (wavePattern.map WavePattern.frequency) (1 / 2)
    let waveAmp := jsOrQ (wavePattern.map WavePattern.amplitude) 5
    (List.range s.photoCount).map (waveEntry m waveFreq waveAmp s.photoCount)
  else if s.animationPattern = "float" then
    let floatPattern := s.patterns.bind PatternsConfig.float
    let spread := jsOrQ (floatPattern.map FloatPattern.spread) 25
    let height := jsOrQ (floatPattern.map FloatPattern.height) 30
    (List.range s.photoCount).map (floatEntry m spread height rand)
  else
    let cols := jsCeilToNat (m.sqrt ((s.photoCount : ℚ) * s.gridAspect))
    let rows := jsCeilToNat ((s.photoCount : ℚ) / (cols : ℚ))
    (List.range s.photoCount).map (gridEntry s cols rows 0)

/-- The SlotTable invariant of the spec: the assignment map has no duplicate
photo ids, no two photos share a slot, every assigned slot is below
`totalSlots`, and `occupiedSlots` holds exactly the assigned slot values. -/
def SlotInv (st : SlotManager) : Prop :=
  (st.slotAssignments.map Prod.fst).Nodup ∧
  (st.slotAssignments.map Prod.snd).Nodup ∧
  (∀ e ∈ st.slotAssignments, e.2 < st.totalSlots) ∧
  (∀ s : Nat, s ∈ st.occupiedSlots ↔ s ∈ st.slotAssignments.map Prod.snd)

/-- Health of the free pool between `rebuildAvailableSlots` and the
assignment loop: duplicate-free, in range, and disjoint from the assigned
slots. -/
def AvailOK (st : SlotManager) : Prop :=
  st.availableSlots.Nodup ∧
  ∀ s ∈ st.availableSlots,
    s < st.totalSlots ∧ s ∉ st.slotAssignments.map Prod.snd

/-! ### Groundwork lemmas on the container helpers -/

theorem lookup_filter_key {β : Type} (q : String → Bool) (m : List (String × β))
    (k : String) (hq : q k = true) :
    (m.filter (fun e => q e.1)).lookup k = m.lookup k := by
  induction m with
  | nil => rfl
  | cons e t ih =>
    by_cases he : q e.1
    · simp only [List.filter_cons, he, if_pos]
      by_cases hk : k = e.1
      · simp [List.lookup, hk]
      · have hb : (k == e.1) = false := by simp [hk]
        simp [List.lookup, hb, ih]
    · have hk : k ≠ e.1 := fun h => he (h ▸ hq)
      have hb : (k == e.1) = false := by simp [hk]
      simp only [List.filter_cons, he, Bool.false_eq_true, if_false]
      rw [ih, List.lookup]
      simp [hb]

theorem lookup_filter_out {β : Type} (m : List (String × β)) (k : String) :
    (m.filter (fun e => e.1 ≠ k)).lookup k = none := by
  induction m with
  | nil => rfl
  | cons e t ih =>
    by_cases he : e.1 = k
    · simpa [List.filter_cons, he] using ih
    · have hb : (k == e.1) = false := by simp [Ne.symm he]
      have hp : (decide (e.1 ≠ k)) = true := by simp [he]
      simp only [List.filter_cons, hp, if_pos, List.lookup, hb]
      simpa using ih

theorem lookup_eq_none_iff_keys {β : Type} (m : List (String × β)) (k : String) :
    m.lookup k = none ↔ k ∉ m.map Prod.fst := by
  induction m with
  | nil => simp [List.lookup]
  | cons e t ih =>
    by_cases he : k = e.1
    · simp [List.lookup, he]
    · have hb : (k == e.1) = false := by simp [he]
      simp [List.lookup, hb, ih, he]

theorem lookup_mapReplace {β : Type} (m : List (String × β)) (k : String)
    (v : β) :
    (m.map (fun e => if e.1 = k then (k, v) else e)).lookup k
      = (m.lookup k).map (fun _ => v) := by
  induction m with
  | nil => rfl
  | cons e t ih =>
    by_cases he : e.1 = k
    · rw [List.map_cons, if_pos he]
      simp [List.lookup, he, ih]
    · rw [List.map_cons, if_neg he]
      have hb : (k == e.1) = false := by simp [Ne.symm he]
      simp [List.lookup, hb, ih]

theorem lookup_mapSet_self {β : Type} (m : List (String × β)) (k : String)
    (v : β) : (mapSet m k v).lookup k = some v := by
  unfold mapSet
  by_cases h : (m.lookup k).isSome
  · rw [if_pos h, lookup_mapReplace]
    obtain ⟨w, hw⟩ := Option.isSome_iff_exists.mp h
    simp [hw]
  · rw [if_neg h, List.lookup_append]
    have hn : m.lookup k = none := Option.not_isSome_iff_eq_none.mp h
    simp [hn, List.lookup]

theorem mem_addSet (s : List Nat) (x y : Nat) :
    x ∈ addSet s y ↔ x ∈ s ∨ x = y := by
  unfold addSet
  split
  · rename_i h
    have hy : y ∈ s := by simpa using h
    constructor
    · exact fun hx => Or.inl hx
    · rintro (hx | rfl) <;> [exact hx; exact hy]
  · simp [List.mem_append]

/-! ### The shuffle permutes the free-slot pool -/

open List in
theorem cons_getElem_set_perm (t : List Nat) (m : Nat) (a : Nat)
    (hm : m < t.length) :
    (t.getD m 0 :: t.set m a).Perm (a :: t) := by
  induction t generalizing m with
  | nil => simp at hm
  | cons b t' ih =>
    cases m with
    | zero => simpa using List.Perm.swap a b t'
    | succ m' =>
      have hm' : m' < t'.length := by simpa using hm
      simp only [List.getD_cons_succ, List.set_cons_succ]
      calc t'.getD m' 0 :: b :: t'.set m' a
          ~ b :: t'.getD m' 0 :: t'.set m' a := List.Perm.swap _ _ _
        _ ~ b :: a :: t' := (ih m' hm').cons b
        _ ~ a :: b :: t' := List.Perm.swap _ _ _

theorem swapElems_perm (l : List Nat) (i j : Nat) (hi : i < l.length)
    (hj : j < l.length) : (swapElems l i j).Perm l := by
  induction l generalizing i j with
  | nil => simp at hi
  | cons a t ih =>
    cases i with
    | zero =>
      cases j with
      | zero => simp [swapElems]
      | succ m =>
        have hm : m < t.length := by simpa using hj
        simpa [swapElems] using cons_getElem_set_perm t m a hm
    | succ n =>
      cases j with
      | zero =>
        have hn : n < t.length := by simpa using hi
        simpa [swapElems] using cons_getElem_set_perm t n a hn
      | succ m =>
        have hn : n < t.length := by simpa using hi
        have hm : m < t.length := by simpa using hj
        simpa [swapElems] using (ih n m hn hm).cons a

theorem fisherYatesAux_perm (rand : Nat → Nat) :
    ∀ (i : Nat) (l : List Nat), i < l.length →
      (fisherYatesAux rand i l).Perm l := by
  intro i
  induction i with
  | zero => intro l _; simp [fisherYatesAux]
  | succ i ih =>
    intro l hl
    have hj : rand (i + 1) % (i + 2) < l.length :=
      lt_of_le_of_lt (Nat.le_of_lt_succ (Nat.mod_lt _ (Nat.succ_pos _))) hl
    have hperm : (swapElems l (i + 1) (rand (i + 1) % (i + 2))).Perm l :=
      swapElems_perm l _ _ hl hj
    have hlen : (swapElems l (i + 1) (rand (i + 1) % (i + 2))).length
        = l.length := by
      simp [swapElems]
    have hi : i < (swapElems l (i + 1) (rand (i + 1) % (i + 2))).length := by
      rw [hlen]; exact Nat.lt_of_succ_lt hl
    exact (ih _ hi).trans hperm

theorem shuffleArray_perm (rand : Nat → Nat) (l : List Nat) :
    (shuffleArray rand l).Perm l := by
  cases l with
  | nil => simp [shuffleArray, fisherYatesAux]
  | cons a t =>
    exact fisherYatesAux_perm rand _ _ (by simp)

/-! ### The stable sort permutes its input -/

open List in
theorem sortedInsert_perm {α : Type} (le : α → α → Bool) (x : α) (l : List α) :
    (sortedInsert le x l).Perm (x :: l) := by
  induction l with
  | nil => rfl
  | cons y ys ih =>
    by_cases h : le y x
    · calc sortedInsert le x (y :: ys)
          = y :: sortedInsert le x ys := by simp [sortedInsert, h]
        _ ~ y :: x :: ys := ih.cons y
        _ ~ x :: y :: ys := List.Perm.swap _ _ _
    · simp [sortedInsert, h]

open List in
theorem foldl_sortedInsert_perm {α : Type} (le : α → α → Bool) :
    ∀ (l acc : List α),
      (l.foldl (fun a x => sortedInsert le x a) acc).Perm (acc ++ l) := by
  intro l
  induction l with
  | nil => intro acc; simp
  | cons x xs ih =>
    intro acc
    calc (x :: xs).foldl (fun a x => sortedInsert le x a) acc
        = xs.foldl (fun a x => sortedInsert le x a) (sortedInsert le x acc) := rfl
      _ ~ sortedInsert le x acc ++ xs := ih _
      _ ~ (x :: acc) ++ xs := (sortedInsert_perm le x acc).append_right xs
      _ ~ acc ++ x :: xs := List.perm_middle.symm

theorem jsSortStable_perm {α : Type} (le : α → α → Bool) (l : List α) :
    (jsSortStable le l).Perm l := by
  simpa [jsSortStable] using foldl_sortedInsert_perm le l []

/-! ### Claim C1 — slot stability -/

theorem rebuildAvailableSlots_slotAssignments (rand : Nat → Nat)
    (st : SlotManager) :
    (rebuildAvailableSlots rand st).slotAssignments = st.slotAssignments := rfl

theorem dropMissingPhotos_lookup (ids : List String) (st : SlotManager)
    (X : String) (hX : ids.contains X = true) :
    (dropMissingPhotos ids st).slotAssignments.lookup X
      = st.slotAssignments.lookup X :=
  lookup_filter_key (fun k => ids.contains k) st.slotAssignments X hX

theorem assignStep_lookup_some (st : SlotManager) (p : Photo) (X : String)
    (s : Nat) (h : st.slotAssignments.lookup X = some s) :
    (assignStep st p).slotAssignments.lookup X = some s := by
  unfold assignStep
  split
  · exact h
  · split
    · exact h
    · simp only [List.lookup_append, h, Option.or_some]

theorem foldl_assignStep_lookup_some (ps : List Photo) (st : SlotManager)
    (X : String) (s : Nat) (h : st.slotAssignments.lookup X = some s) :
    (ps.foldl assignStep st).slotAssignments.lookup X = some s := by
  induction ps generalizing st with
  | nil => exact h
  | cons p t ih => exact ih _ (assignStep_lookup_some st p X s h)

theorem assignSlots_lookup_some (photos : List Photo) (rand : Nat → Nat)
    (st : SlotManager) (X : String) (s : Nat)
    (hmem : X ∈ (photos.filter (fun p => p.id ≠ "")).map Photo.id)
    (h : st.slotAssignments.lookup X = some s) :
    (assignSlots photos rand st).slotAssignments.lookup X = some s := by
  unfold assignSlots
  apply foldl_assignStep_lookup_some
  unfold assignPrep
  rw [rebuildAvailableSlots_slotAssignments,
    dropMissingPhotos_lookup _ _ _ (by simpa using hmem)]
  exact h

/-- C1.  Slot stability: once a photo `X` holds slot `s` in the manager, any
sequence of further `assignSlots` calls — each with its own photo list and
`Math.random()` stream — leaves `X` on slot `s`, provided `X` (with a truthy
id) appears in every call's photo list and the slot count is never changed
in between. -/
theorem slot_stability (calls : List (List Photo × (Nat → Nat)))
    (st : SlotManager) (X : String) (s : Nat)
    (hfirst : st.slotAssignments.lookup X = some s)
    (hpresent : ∀ c ∈ calls,
      X ∈ (c.1.filter (fun p => p.id ≠ "")).map Photo.id) :
    (applyAssignCalls calls st).slotAssignments.lookup X = some s := by
  induction calls generalizing st with
  | nil => exact hfirst
  | cons c t ih =>
    exact ih (assignSlots c.1 c.2 st)
      (assignSlots_lookup_some c.1 c.2 st X s (hpresent c (by simp)) hfirst)
      (fun d hd => hpresent d (by simp [hd]))

/-- Witness for C1 at a concrete run: photo `a` gets slot 1 on the first
call, keeps it while `b` arrives and leaves again. -/
theorem slot_stability_witness :
    (assignSlots [⟨"a", "", none, some 1⟩] (fun _ => 0)
        (mkSlotManager 2 (fun _ => 0))).slotAssignments.lookup "a" = some 1 ∧
    (applyAssignCalls
        [([⟨"a", "", none, some 1⟩, ⟨"b", "", none, some 2⟩], fun _ => 0),
         ([⟨"a", "", none, some 1⟩], fun _ => 0)]
        (assignSlots [⟨"a", "", none, some 1⟩] (fun _ => 0)
          (mkSlotManager 2 (fun _ => 0)))).slotAssignments.lookup "a"
      = some 1 :=
  ⟨by decide, slot_stability _ _ _ _ (by decide) (by decide)⟩

/-! ### Claim C5 — SlotTable invariant -/

theorem nodup_map_filter {α β : Type} (f : α → β) (p : α → Bool)
    (l : List α) (h : (l.map f).Nodup) : ((l.filter p).map f).Nodup :=
  List.Nodup.sublist ((List.filter_sublist l).map f) h

theorem filter_occ_iff (l : List (String × Nat)) (occ : List Nat)
    (p q : String × Nat → Bool) (hpq : ∀ e, q e = !(p e))
    (hv : (l.map Prod.snd).Nodup)
    (ho : ∀ t : Nat, t ∈ occ ↔ t ∈ l.map Prod.snd) (s : Nat) :
    s ∈ occ.filter (fun t => ¬ ((l.filter q).map Prod.snd).contains t)
      ↔ s ∈ (l.filter p).map Prod.snd := by
  constructor
  · intro hs
    obtain ⟨hso, hnd⟩ := List.mem_filter.mp hs
    have hnd' : s ∉ (l.filter q).map Prod.snd := by simpa using hnd
    obtain ⟨e, he, hes⟩ := List.mem_map.mp ((ho s).mp hso)
    by_cases hp : p e
    · exact List.mem_map.mpr ⟨e, List.mem_filter.mpr ⟨he, hp⟩, hes⟩
    · exact absurd
        (List.mem_map.mpr ⟨e, List.mem_filter.mpr ⟨he, by simp [hpq e, hp]⟩, hes⟩)
        hnd'
  · intro hs
    obtain ⟨e, hef, hes⟩ := List.mem_map.mp hs
    obtain ⟨he, hpe⟩ := List.mem_filter.mp hef
    refine List.mem_filter.mpr ⟨(ho s).mpr (List.mem_map.mpr ⟨e, he, hes⟩), ?_⟩
    have hnot : s ∉ (l.filter q).map Prod.snd := by
      intro hc
      obtain ⟨f, hff, hfs⟩ := List.mem_map.mp hc
      obtain ⟨hf, hqf⟩ := List.mem_filter.mp hff
      have hfe : f = e :=
        List.inj_on_of_nodup_map hv hf he (hfs.trans hes.symm)
      subst hfe
      rw [hpq f, hpe] at hqf
      simp at hqf
    simpa using hnot

theorem dropMissingPhotos_inv (ids : List String) (st : SlotManager)
    (h : SlotInv st) : SlotInv (dropMissingPhotos ids st) := by
  obtain ⟨hk, hv, hb, ho⟩ := h
  refine ⟨nodup_map_filter _ _ _ hk, nodup_map_filter _ _ _ hv, ?_, ?_⟩
  · intro e he
    exact hb e (List.mem_of_mem_filter he)
  · intro s
    exact filter_occ_iff st.slotAssignments st.occupiedSlots
      (fun e => ids.contains e.1) (fun e => ¬ ids.contains e.1)
      (fun e => by cases hx : ids.contains e.1 <;> simp [hx])
      hv ho s

theorem updateSlotCount_inv (n : Nat) (rand : Nat → Nat) (st : SlotManager)
    (h : SlotInv st) : SlotInv (updateSlotCount n rand st) := by
  unfold updateSlotCount
  split
  · exact h
  · obtain ⟨hk, hv, hb, ho⟩ := h
    refine ⟨nodup_map_filter _ _ _ hk, nodup_map_filter _ _ _ hv, ?_, ?_⟩
    · intro e he
      have := (List.mem_filter.mp he).2
      simpa using this
    · intro s
      exact filter_occ_iff st.slotAssignments st.occupiedSlots
        (fun e => e.2 < n) (fun e => ¬ e.2 < n)
        (fun e => by by_cases hx : e.2 < n <;> simp [hx]) hv ho s

theorem rebuildAvailableSlots_inv (rand : Nat → Nat) (st : SlotManager)
    (h : SlotInv st) : SlotInv (rebuildAvailableSlots rand st) := h

theorem rebuildAvailableSlots_availOK (rand : Nat → Nat) (st : SlotManager)
    (h : SlotInv st) : AvailOK (rebuildAvailableSlots rand st) := by
  constructor
  · exact (shuffleArray_perm rand _).symm.nodup
      (List.Nodup.filter _ (List.nodup_range _))
  · intro s hs
    have hmem : s ∈ (List.range st.totalSlots).filter
        (fun i => ¬ st.occupiedSlots.contains i) :=
      ((shuffleArray_perm rand _).mem_iff).mp hs
    obtain ⟨hr, hocc⟩ := List.mem_filter.mp hmem
    refine ⟨List.mem_range.mp hr, ?_⟩
    intro hval
    have : s ∈ st.occupiedSlots := (h.2.2.2 s).mpr hval
    simp [this] at hocc

theorem assignStep_inv (st : SlotManager) (p : Photo)
    (h : SlotInv st) (ha : AvailOK st) :
    SlotInv (assignStep st p) ∧ AvailOK (assignStep st p) := by
  obtain ⟨hk, hv, hb, ho⟩ := h
  obtain ⟨han, hap⟩ := ha
  unfold assignStep
  split
  · exact ⟨⟨hk, hv, hb, ho⟩, ⟨han, hap⟩⟩
  · rename_i slot rest heq
    split
    · exact ⟨⟨hk, hv, hb, ho⟩, ⟨han, hap⟩⟩
    · rename_i hlook
      have hnone : st.slotAssignments.lookup p.id = none := by
        cases hx : st.slotAssignments.lookup p.id
        · rfl
        · exact absurd (by simp [hx]) hlook
      have hkid : p.id ∉ st.slotAssignments.map Prod.fst :=
        (lookup_eq_none_iff_keys _ _).mp hnone
      have hslot : slot ∈ st.availableSlots := by rw [heq]; simp
      obtain ⟨hslt, hsnv⟩ := hap slot hslot
      have hcons := heq ▸ han
      have hrest_nodup : rest.Nodup := (List.nodup_cons.mp hcons).2
      have hslot_rest : slot ∉ rest := (List.nodup_cons.mp hcons).1
      refine ⟨⟨?_, ?_, ?_, ?_⟩, ⟨hrest_nodup, ?_⟩⟩
      · rw [List.map_append, List.nodup_append]
        refine ⟨hk, List.nodup_singleton _, ?_⟩
        intro a hael haer
        simp only [List.map_cons, List.map_nil, List.mem_singleton] at haer
        exact hkid (haer ▸ hael)
      · rw [List.map_append, List.nodup_append]
        refine ⟨hv, List.nodup_singleton _, ?_⟩
        intro a hael haer
        simp only [List.map_cons, List.map_nil, List.mem_singleton] at haer
        exact hsnv (haer ▸ hael)
      · intro e he
        rcases List.mem_append.mp he with h1 | h2
        · exact hb e h1
        · have : e = (p.id, slot) := by simpa using h2
          rw [this]
          exact hslt
      · intro s
        rw [mem_addSet, ho s, List.map_append]
        simp [List.mem_append]
      · intro s hs
        have hmem : s ∈ st.availableSlots := by
          rw [heq]; exact List.mem_cons_of_mem _ hs
        obtain ⟨h1, h2⟩ := hap s hmem
        refine ⟨h1, ?_⟩
        rw [List.map_append]
        intro hx
        rcases List.mem_append.mp hx with hy | hy
        · exact h2 hy
        · have : s = slot := by simpa using hy
          exact hslot_rest (this ▸ hs)

theorem foldl_assignStep_inv (ps : List Photo) (st : SlotManager)
    (h : SlotInv st) (ha : AvailOK st) : SlotInv (ps.foldl assignStep st) := by
  induction ps generalizing st with
  | nil => exact h
  | cons p t ih =>
    obtain ⟨h1, h2⟩ := assignStep_inv st p h ha
    exact ih _ h1 h2

theorem assignSlots_inv (photos : List Photo) (rand : Nat → Nat)
    (st : SlotManager) (h : SlotInv st) :
    SlotInv (assignSlots photos rand st) := by
  have h1 := dropMissingPhotos_inv
    ((photos.filter (fun p => p.id ≠ "")).map Photo.id) st h
  exact foldl_assignStep_inv _ _ (rebuildAvailableSlots_inv rand _ h1)
    (rebuildAvailableSlots_availOK rand _ h1)

theorem mkSlotManager_inv (n : Nat) (rand : Nat → Nat) :
    SlotInv (mkSlotManager n rand) := by
  apply updateSlotCount_inv
  refine ⟨List.nodup_nil, List.nodup_nil, ?_, ?_⟩ <;> simp

/-- C5.  SlotTable invariant: in every manager state reachable from the
constructor by `assignSlots` and `updateSlotCount` calls, the assignment map
is injective (duplicate-free photo ids and slot values), every assigned slot
index is strictly below the slot count, and the occupied set holds exactly
the slot indices appearing as assignment values. -/
theorem slot_table_invariant (n : Nat) (rand : Nat → Nat)
    (ops : List SlotOp) :
    SlotInv (ops.foldl applySlotOp (mkSlotManager n rand)) := by
  suffices h : ∀ st, SlotInv st → SlotInv (ops.foldl applySlotOp st) from
    h _ (mkSlotManager_inv n rand)
  induction ops with
  | nil => exact fun st h => h
  | cons op t ih =>
    intro st h
    refine ih _ ?_
    cases op with
    | assign photos rand2 => exact assignSlots_inv photos rand2 st h
    | setCount m rand2 => exact updateSlotCount_inv m rand2 st h

/-! ### Claim C8 — assignment order -/

theorem lookup_append_single_ne {β : Type} (m : List (String × β))
    (k k2 : String) (v : β) (h : k ≠ k2) :
    (m ++ [(k2, v)]).lookup k = m.lookup k := by
  rw [List.lookup_append]
  have h2 : ([(k2, v)] : List (String × β)).lookup k = none := by
    have hb : (k == k2) = false := by simp [h]
    simp [List.lookup, hb]
  rw [h2]
  cases m.lookup k <;> rfl

theorem foldl_assignStep_characterization (ps : List Photo) (st : SlotManager)
    (hnd : (ps.map Photo.id).Nodup) :
    (ps.foldl assignStep st).slotAssignments
      = st.slotAssignments
        ++ ((ps.filter (fun p =>
              (st.slotAssignments.lookup p.id).isNone)).map Photo.id).zip
            st.availableSlots := by
  induction ps generalizing st with
  | nil => simp
  | cons p t ih =>
    rw [List.map_cons] at hnd
    obtain ⟨hp, hnd'⟩ := List.nodup_cons.mp hnd
    have hstep : (p :: t).foldl assignStep st = t.foldl assignStep (assignStep st p) := rfl
    rw [hstep]
    cases heq : st.availableSlots with
    | nil =>
      have hid : assignStep st p = st := by unfold assignStep; rw [heq]
      rw [hid, ih _ hnd', heq]
      simp
    | cons slot rest =>
      by_cases hl : (st.slotAssignments.lookup p.id).isSome
      · have hid : assignStep st p = st := by
          unfold assignStep; rw [heq]; simp [hl]
        have hfp : (st.slotAssignments.lookup p.id).isNone = false := by
          simp only [Option.isNone_eq_false_iff]; exact hl
        rw [hid, ih _ hnd', List.filter_cons, hfp]
        simp [heq]
      · have hnone : st.slotAssignments.lookup p.id = none :=
          Option.not_isSome_iff_eq_none.mp hl
        have hid : assignStep st p =
            { st with
              slotAssignments := st.slotAssignments ++ [(p.id, slot)],
              occupiedSlots := addSet st.occupiedSlots slot,
              availableSlots := rest } := by
          unfold assignStep; rw [heq]; simp [hl]
        rw [hid, ih _ hnd']
        have hfilter :
            t.filter (fun q =>
              ((st.slotAssignments ++ [(p.id, slot)]).lookup q.id).isNone)
              = t.filter (fun q =>
                  (st.slotAssignments.lookup q.id).isNone) := by
          apply List.filter_congr
          intro q hq
          have hne : q.id ≠ p.id := by
            intro hqe
            exact hp (hqe ▸ List.mem_map_of_mem Photo.id hq)
          rw [lookup_append_single_ne _ _ _ _ hne]
        rw [hfilter, List.filter_cons]
        have hfp : (st.slotAssignments.lookup p.id).isNone = true := by
          simp [hnone]
        rw [if_pos (by simp [hfp])]
        simp [heq, List.zip_cons_cons, List.append_assoc]

/-- C8 counterexample: with one free slot and two fresh photos sharing the
same `created_at`, the source assigns the slot to the photo that came first
in the input array (`"b"`), while the claim's order — created_at ascending
with id lexical tie-break — would assign it to `"a"`. -/
theorem assignment_order_counterexample :
    (assignSlots [⟨"b", "", none, some 5⟩, ⟨"a", "", none, some 5⟩]
        (fun _ => 0) (mkSlotManager 1 (fun _ => 0))).slotAssignments.lookup "a"
      = none ∧
    (assignSlots [⟨"b", "", none, some 5⟩, ⟨"a", "", none, some 5⟩]
        (fun _ => 0) (mkSlotManager 1 (fun _ => 0))).slotAssignments.lookup "b"
      = some 0 ∧
    (assignSlotsSpecOrder [⟨"b", "", none, some 5⟩, ⟨"a", "", none, some 5⟩]
        (fun _ => 0) (mkSlotManager 1 (fun _ => 0))).slotAssignments.lookup "a"
      = some 0 :=
  ⟨by decide, by decide, by decide⟩

/-- C8 (amended).  Assignment order: provided the (truthy) photo ids are
duplicate-free, `assignSlots` extends the surviving assignments with exactly
the photos that hold no slot yet, taken in the order of the source's stable
sort (`created_at` ascending when both timestamps are present, ties keeping
input order; id lexical order only when a timestamp is missing), each zipped
with the next free slot until photos or free slots run out; photos beyond
the free slots receive no assignment. -/
theorem assignSlots_assignment_order (photos : List Photo) (rand : Nat → Nat)
    (st : SlotManager)
    (hnd : ((photos.filter (fun p => p.id ≠ "")).map Photo.id).Nodup) :
    (assignSlots photos rand st).slotAssignments
      = (assignPrep photos rand st).slotAssignments
        ++ (((jsSortStable photoCompareLE
              (photos.filter (fun p => p.id ≠ ""))).filter (fun p =>
                ((assignPrep photos rand st).slotAssignments.lookup
                  p.id).isNone)).map Photo.id).zip
            (assignPrep photos rand st).availableSlots := by
  apply foldl_assignStep_characterization
  exact ((jsSortStable_perm photoCompareLE
    (photos.filter (fun p => p.id ≠ ""))).map Photo.id).symm.nodup hnd

/-- Witness for the amended C8 at a concrete run with two fresh photos and
two free slots. -/
theorem assignSlots_assignment_order_witness :
    ((([⟨"a", "", none, some 2⟩, ⟨"b", "", none, some 1⟩] : List Photo).filter
        (fun p => p.id ≠ "")).map Photo.id).Nodup ∧
    (assignSlots [⟨"a", "", none, some 2⟩, ⟨"b", "", none, some 1⟩]
        (fun _ => 0) (mkSlotManager 2 (fun _ => 0))).slotAssignments
      = (assignPrep [⟨"a", "", none, some 2⟩, ⟨"b", "", none, some 1⟩]
          (fun _ => 0) (mkSlotManager 2 (fun _ => 0))).slotAssignments
        ++ (((jsSortStable photoCompareLE
              (([⟨"a", "", none, some 2⟩, ⟨"b", "", none, some 1⟩] :
                List Photo).filter (fun p => p.id ≠ ""))).filter (fun p =>
                ((assignPrep [⟨"a", "", none, some 2⟩, ⟨"b", "", none, some 1⟩]
                    (fun _ => 0) (mkSlotManager 2 (fun _ => 0))).slotAssignments.lookup
                  p.id).isNone)).map Photo.id).zip
            (assignPrep [⟨"a", "", none, some 2⟩, ⟨"b", "", none, some 1⟩]
              (fun _ => 0) (mkSlotManager 2 (fun _ => 0))).availableSlots :=
  ⟨by decide, assignSlots_assignment_order _ _ _ (by decide)⟩

/-! ### Claim C6 — Inserted reconciliation is idempotent -/

theorem addPhotoToState_of_present (photo : StorePhoto) (now : Nat)
    (st : PhotoState) (h : (st.byId.lookup photo.id).isSome) :
    addPhotoToState photo now st = st := by
  unfold addPhotoToState
  rw [if_pos h]

theorem addPhotoToState_lookup_self (photo : StorePhoto) (now : Nat)
    (st : PhotoState) (h : ¬ (st.byId.lookup photo.id).isSome = true) :
    (addPhotoToState photo now st).byId.lookup photo.id = some photo := by
  unfold addPhotoToState
  rw [if_neg h]
  exact lookup_mapSet_self _ _ _

/-- C6.  `Inserted` reconciliation is idempotent: `addPhotoToState` is a
no-op when the id is already present, prepends the id to `allIds` and stores
the photo when it is not, and applying the same insertion twice always
equals applying it once (whatever the two wall-clock stamps are). -/
theorem inserted_idempotent (photo : StorePhoto) (st : PhotoState)
    (now now2 : Nat) :
    ((st.byId.lookup photo.id).isSome → addPhotoToState photo now st = st) ∧
    (¬ (st.byId.lookup photo.id).isSome = true →
      (addPhotoToState photo now st).allIds = photo.id :: st.allIds ∧
      (addPhotoToState photo now st).byId.lookup photo.id = some photo) ∧
    addPhotoToState photo now2 (addPhotoToState photo now st)
      = addPhotoToState photo now st := by
  refine ⟨addPhotoToState_of_present photo now st, ?_, ?_⟩
  · intro h
    refine ⟨?_, addPhotoToState_lookup_self photo now st h⟩
    unfold addPhotoToState
    rw [if_neg h]
  · by_cases h : (st.byId.lookup photo.id).isSome
    · rw [addPhotoToState_of_present photo now st h,
        addPhotoToState_of_present photo now2 st h]
    · exact addPhotoToState_of_present photo now2 _
        (by rw [addPhotoToState_lookup_self photo now st h]; rfl)

/-- Witness for C6: inserting photo `p1` into the empty store prepends its
id, and re-delivering the same insertion changes nothing. -/
theorem inserted_idempotent_witness :
    (addPhotoToState ⟨"p1", "c1", "u1", 3⟩ 5 initialPhotoState).allIds
      = "p1" :: initialPhotoState.allIds ∧
    addPhotoToState ⟨"p1", "c1", "u1", 3⟩ 7
        (addPhotoToState ⟨"p1", "c1", "u1", 3⟩ 5 initialPhotoState)
      = addPhotoToState ⟨"p1", "c1", "u1", 3⟩ 5 initialPhotoState :=
  ⟨((inserted_idempotent ⟨"p1", "c1", "u1", 3⟩ initialPhotoState 5 7).2.1
      (by decide)).1,
   (inserted_idempotent ⟨"p1", "c1", "u1", 3⟩ initialPhotoState 5 7).2.2⟩

/-! ### Claim C4 — Updated reconciliation -/

/-- C4, evaluated at the failing input: the store holds photo `p1` with url
`"old"`; a realtime `UPDATE` delivering `p1` with url `"new"` leaves the
state byte-for-byte unchanged, because the UPDATE branch calls
`addPhotoToState`, whose already-present early return drops the event.  The
position in `allIds` and the slot assignment are indeed untouched, but the
fields are not replaced as the claim demands. -/
theorem updated_event_drops_field_change :
    handleRealtimeEvent (.UPDATE ⟨"p1", "c1", "new", 0⟩) 9
        (addPhotoToState ⟨"p1", "c1", "old", 0⟩ 1 initialPhotoState)
      = addPhotoToState ⟨"p1", "c1", "old", 0⟩ 1 initialPhotoState ∧
    (handleRealtimeEvent (.UPDATE ⟨"p1", "c1", "new", 0⟩) 9
        (addPhotoToState ⟨"p1", "c1", "old", 0⟩ 1
          initialPhotoState)).byId.lookup "p1"
      = some ⟨"p1", "c1", "old", 0⟩ :=
  ⟨by decide, by decide⟩

/-! ### Claim C3 — snapshot diff correctness -/

theorem updatePhotosFromArray_allIds (photos : List StorePhoto) (now : Nat)
    (st : PhotoState) :
    (updatePhotosFromArray photos now st).allIds = photos.map StorePhoto.id :=
  rfl

/-- C3.  Snapshot diff correctness: with duplicate-free id lists, one poll
tick yields exactly the insert/remove effects of the symmetric difference of
the current id set `T` and the snapshot id set `S` — the ids newly present
are `S \ T`, the ids no longer present are `T \ S` — and when `S` equals `T`
as a set the tick changes nothing at all (the comparison looks only at ids,
never at the photo fields). -/
theorem snapshot_diff_correct (snapshot : List StorePhoto) (st : PhotoState)
    (now : Nat) (hT : st.allIds.Nodup)
    (hS : (snapshot.map StorePhoto.id).Nodup) :
    (∀ i, (i ∈ (pollTick snapshot now st).allIds ∧ i ∉ st.allIds) ↔
      (i ∈ snapshot.map StorePhoto.id ∧ i ∉ st.allIds)) ∧
    (∀ i, (i ∈ st.allIds ∧ i ∉ (pollTick snapshot now st).allIds) ↔
      (i ∈ st.allIds ∧ i ∉ snapshot.map StorePhoto.id)) ∧
    ((∀ i, i ∈ st.allIds ↔ i ∈ snapshot.map StorePhoto.id) →
      pollTick snapshot now st = st) := by
  by_cases hlen : st.allIds.length ≠ (snapshot.map StorePhoto.id).length
  · have hres : pollTick snapshot now st = updatePhotosFromArray snapshot now st := by
      unfold pollTick
      rw [if_pos hlen]
    refine ⟨?_, ?_, ?_⟩
    · intro i
      rw [hres, updatePhotosFromArray_allIds]
    · intro i
      rw [hres, updatePhotosFromArray_allIds]
    · intro hiff
      exfalso
      apply hlen
      have hsub1 : st.allIds ⊆ snapshot.map StorePhoto.id :=
        fun i hi => (hiff i).mp hi
      have hsub2 : snapshot.map StorePhoto.id ⊆ st.allIds :=
        fun i hi => (hiff i).mpr hi
      exact ((hT.subperm hsub1).antisymm (hS.subperm hsub2)).length_eq
  · push_neg at hlen
    by_cases hchg : ∃ i ∈ snapshot.map StorePhoto.id, i ∉ st.allIds
    · have hany : (snapshot.map StorePhoto.id).any
          (fun i => ¬ st.allIds.contains i) = true := by
        obtain ⟨i, hi, hni⟩ := hchg
        rw [List.any_eq_true]
        exact ⟨i, hi, by simpa using hni⟩
      have hres : pollTick snapshot now st = updatePhotosFromArray snapshot now st := by
        unfold pollTick
        rw [if_neg (by simpa using hlen), if_pos hany]
      refine ⟨?_, ?_, ?_⟩
      · intro i
        rw [hres, updatePhotosFromArray_allIds]
      · intro i
        rw [hres, updatePhotosFromArray_allIds]
      · intro hiff
        exfalso
        obtain ⟨i, hi, hni⟩ := hchg
        exact hni ((hiff i).mpr hi)
    · push_neg at hchg
      have hany : (snapshot.map StorePhoto.id).any
          (fun i => ¬ st.allIds.contains i) = false := by
        apply List.any_eq_false.mpr
        intro i hi
        have hmem : i ∈ st.allIds := hchg i hi
        simp [hmem]
      have hres : pollTick snapshot now st = st := by
        unfold pollTick
        rw [if_neg (by simpa using hlen), if_neg (by rw [hany]; simp)]
      have hperm : (snapshot.map StorePhoto.id).Perm st.allIds :=
        (hS.subperm (fun i hi => hchg i hi)).perm_of_length_le
          (le_of_eq hlen)
      refine ⟨?_, ?_, fun _ => hres⟩
      · intro i
        rw [hres]
        constructor
        · rintro ⟨h1, h2⟩
          exact absurd h1 h2
        · rintro ⟨h1, h2⟩
          exact absurd (hperm.mem_iff.mp h1) h2
      · intro i
        rw [hres]
        constructor
        · rintro ⟨h1, h2⟩
          exact absurd h1 h2
        · rintro ⟨h1, h2⟩
          exact absurd (hperm.mem_iff.mpr h1) h2

/-- Witness for C3: a snapshot carrying the same single id but a different
url leaves the state untouched — the diff looks only at ids. -/
theorem snapshot_diff_correct_witness :
    pollTick [⟨"p1", "c1", "u2", 0⟩] 9
        (addPhotoToState ⟨"p1", "c1", "u1", 0⟩ 1 initialPhotoState)
      = addPhotoToState ⟨"p1", "c1", "u1", 0⟩ 1 initialPhotoState :=
  (snapshot_diff_correct [⟨"p1", "c1", "u2", 0⟩]
      (addPhotoToState ⟨"p1", "c1", "u1", 0⟩ 1 initialPhotoState) 9
      (by decide) (by decide)).2.2 (fun i => Iff.rfl)

/-! ### Claim C10 — a confirmed live feed wins over polling -/

theorem stopPolling_connected (st : SessionState) :
    (stopPolling st).isRealtimeConnected = st.isRealtimeConnected := by
  unfold stopPolling
  cases st.pollingInterval <;> rfl

theorem stopPolling_interval (st : SessionState) :
    (stopPolling st).pollingInterval = none := by
  unfold stopPolling
  cases hsp : st.pollingInterval <;> simp [hsp]

theorem startPolling_connected (st : SessionState) :
    (startPolling st).isRealtimeConnected = st.isRealtimeConnected := by
  unfold startPolling
  simp [stopPolling_connected]

/-- C10.  Whenever a `SUBSCRIBED` status is delivered — whatever the current
state, in particular after the polling fallback has already started — the
session marks itself live and clears any active polling timer; and along
every event history from the initial state, the session is never
simultaneously confirmed-live and polling. -/
theorem live_wins_over_polling (st : SessionState) (evs : List SessionEvent) :
    ((onSubscribeStatus .SUBSCRIBED st).isRealtimeConnected = true ∧
      (onSubscribeStatus .SUBSCRIBED st).pollingInterval = none) ∧
    ((evs.foldl stepSession initSession).isRealtimeConnected = false ∨
      (evs.foldl stepSession initSession).pollingInterval = none) := by
  constructor
  · constructor
    · show (stopPolling { st with isRealtimeConnected := true
        }).isRealtimeConnected = true
      rw [stopPolling_connected]
    · exact stopPolling_interval _
  · suffices h : ∀ s : SessionState,
        (s.isRealtimeConnected = false ∨ s.pollingInterval = none) →
        ((evs.foldl stepSession s).isRealtimeConnected = false ∨
          (evs.foldl stepSession s).pollingInterval = none) from
      h initSession (Or.inl rfl)
    induction evs with
    | nil => exact fun s h => h
    | cons e t ih =>
      intro s h
      refine ih _ ?_
      cases e with
      | status sub =>
        cases sub with
        | SUBSCRIBED =>
          right
          exact stopPolling_interval _
        | CHANNEL_ERROR =>
          left
          show (startPolling { s with isRealtimeConnected := false
            }).isRealtimeConnected = false
          rw [startPolling_connected]
        | TIMED_OUT =>
          left
          show (startPolling { s with isRealtimeConnected := false
            }).isRealtimeConnected = false
          rw [startPolling_connected]
        | CLOSED => left; rfl
      | timeoutFire =>
        show ((onRealtimeTimeout s).isRealtimeConnected = false ∨
          (onRealtimeTimeout s).pollingInterval = none)
        unfold onRealtimeTimeout
        by_cases hc : s.isRealtimeConnected
        · rw [if_pos hc]
          exact h
        · rw [if_neg hc]
          left
          rw [startPolling_connected]
          simpa using hc
      | cleanup =>
        left
        show (stopPolling { s with isRealtimeConnected := false
          }).isRealtimeConnected = false
        rw [stopPolling_connected]

/-! ### Claims C2 and C9 — texture cache deduplication and retry -/

theorem getTexture_pending (url : String) (c : TextureCacheState) (p : Nat)
    (hc : c.cache.lookup url = none)
    (hp : c.loadingPromises.lookup url = some p) :
    getTexture url c = (.promise p, c) := by
  unfold getTexture
  rw [hc, hp]

theorem getTexture_fresh (url : String) (c : TextureCacheState)
    (hc : c.cache.lookup url = none)
    (hp : c.loadingPromises.lookup url = none) :
    getTexture url c =
      (.promise c.nextPromiseId,
       { c with
         loadingPromises := c.loadingPromises ++ [(url, c.nextPromiseId)],
         nextPromiseId := c.nextPromiseId + 1,
         fetchesStarted := c.fetchesStarted ++ [url] }) := by
  unfold getTexture
  rw [hc, hp]

theorem acquireSeq_succ (url : String) (n : Nat) (c : TextureCacheState) :
    acquireSeq url (n + 1) c
      = ((getTexture url c).1 :: (acquireSeq url n (getTexture url c).2).1,
         (acquireSeq url n (getTexture url c).2).2) := rfl

theorem acquireSeq_pending (url : String) (n : Nat) (c : TextureCacheState)
    (hc : c.cache.lookup url = none)
    (hp : c.loadingPromises.lookup url = some p) :
    acquireSeq url n c = (List.replicate n (.promise p), c) := by
  induction n with
  | zero => rfl
  | succ n ih =>
    unfold acquireSeq
    rw [getTexture_pending url c p hc hp]
    simp [ih, List.replicate_succ]

/-- C2.  Cache deduplication: a `Ready` url resolves immediately with the
cached texture and no state change; a `Pending` url hands every caller the
same in-flight promise with no state change (so no second fetch); and `n ≥ 1`
back-to-back `getTexture` calls for an unresolved url start exactly one
underlying fetch, give all `n` callers one and the same promise, and when the
loader succeeds that single promise resolves once with the one texture
instance every caller shares. -/
theorem cache_dedup (url : String) (c : TextureCacheState) (n : Nat) :
    (∀ t, c.cache.lookup url = some t → getTexture url c = (.resolved t, c)) ∧
    (∀ p, c.cache.lookup url = none → c.loadingPromises.lookup url = some p →
      getTexture url c = (.promise p, c)) ∧
    (c.cache.lookup url = none → c.loadingPromises.lookup url = none → 1 ≤ n →
      (acquireSeq url n c).1 = List.replicate n (.promise c.nextPromiseId) ∧
      (acquireSeq url n c).2.fetchesStarted = c.fetchesStarted ++ [url] ∧
      ∀ tex, (completeLoad url c.nextPromiseId tex (acquireSeq url n c).2).resolvedWith
        = c.resolvedWith ++ [(c.nextPromiseId, tex)]) := by
  refine ⟨?_, ?_, ?_⟩
  · intro t ht
    unfold getTexture
    rw [ht]
  · intro p hc hp
    exact getTexture_pending url c p hc hp
  · intro hc hp hn
    obtain ⟨m, rfl⟩ : ∃ m, n = m + 1 := ⟨n - 1, (Nat.succ_pred_eq_of_pos hn).symm⟩
    have hstep : acquireSeq url (m + 1) c =
        ((.promise c.nextPromiseId) ::
          (acquireSeq url m ((getTexture url c).2)).1,
         (acquireSeq url m ((getTexture url c).2)).2) := by
      rw [acquireSeq_succ]
      rw [getTexture_fresh url c hc hp]
    have hc' : ((getTexture url c).2).cache.lookup url = none := by
      rw [getTexture_fresh url c hc hp]
      exact hc
    have hp' : ((getTexture url c).2).loadingPromises.lookup url
        = some c.nextPromiseId := by
      rw [getTexture_fresh url c hc hp]
      show (c.loadingPromises ++ [(url, c.nextPromiseId)]).lookup url
        = some c.nextPromiseId
      rw [List.lookup_append, hp]
      simp [List.lookup]
    have hrest := acquireSeq_pending url m ((getTexture url c).2) hc' hp'
    refine ⟨?_, ?_, ?_⟩
    · rw [hstep, hrest]
      simp [List.replicate_succ]
    · rw [hstep, hrest]
      rw [getTexture_fresh url c hc hp]
    · intro tex
      rw [hstep, hrest]
      rw [getTexture_fresh url c hc hp]
      rfl

/-- Witness for C2: two concurrent callers on an empty cache share promise 0,
one fetch is logged, and a successful load resolves that promise with the
single texture instance. -/
theorem cache_dedup_witness :
    (acquireSeq "a.jpg" 2 emptyTextureCache).1
      = List.replicate 2 (.promise 0) ∧
    (acquireSeq "a.jpg" 2 emptyTextureCache).2.fetchesStarted = ["a.jpg"] ∧
    (completeLoad "a.jpg" 0 41 (acquireSeq "a.jpg" 2 emptyTextureCache).2).resolvedWith
      = [(0, 41)] := by
  obtain ⟨h1, h2, h3⟩ :=
    (cache_dedup "a.jpg" emptyTextureCache 2).2.2 (by decide) (by decide)
      (by decide)
  exact ⟨h1, h2, h3 41⟩

/-- C9.  A failed fetch enables retry: when the fetch for the pending promise
`p` of `url` fails, that promise — the one every waiter holds — is rejected,
the url's entry leaves the cache maps, and an immediately following
`getTexture(url)` mints a fresh promise and starts a new fetch instead of
replaying the failure. -/
theorem failed_fetch_retries (url : String) (c : TextureCacheState) (p : Nat)
    (hc : c.cache.lookup url = none)
    (hp : c.loadingPromises.lookup url = some p) :
    p ∈ (failLoad url p c).rejectedIds ∧
    (failLoad url p c).loadingPromises.lookup url = none ∧
    (failLoad url p c).cache.lookup url = none ∧
    (getTexture url (failLoad url p c)).1
      = .promise (failLoad url p c).nextPromiseId ∧
    (getTexture url (failLoad url p c)).2.fetchesStarted
      = (failLoad url p c).fetchesStarted ++ [url] := by
  have hp' : (failLoad url p c).loadingPromises.lookup url = none :=
    lookup_filter_out _ _
  have hc' : (failLoad url p c).cache.lookup url = none := hc
  refine ⟨?_, hp', hc', ?_, ?_⟩
  · show p ∈ c.rejectedIds ++ [p]
    simp
  · rw [getTexture_fresh url _ hc' hp']
  · rw [getTexture_fresh url _ hc' hp']

/-- Witness for C9: the single pending fetch for `a.jpg` fails; the promise
is rejected, the entry is gone, and the next call starts fetch number two. -/
theorem failed_fetch_retries_witness :
    0 ∈ (failLoad "a.jpg" 0 (getTexture "a.jpg" emptyTextureCache).2).rejectedIds ∧
    (failLoad "a.jpg" 0
        (getTexture "a.jpg" emptyTextureCache).2).loadingPromises.lookup "a.jpg"
      = none ∧
    (failLoad "a.jpg" 0 (getTexture "a.jpg" emptyTextureCache).2).cache.lookup "a.jpg"
      = none ∧
    (getTexture "a.jpg"
        (failLoad "a.jpg" 0 (getTexture "a.jpg" emptyTextureCache).2)).1
      = .promise (failLoad "a.jpg" 0
          (getTexture "a.jpg" emptyTextureCache).2).nextPromiseId ∧
    (getTexture "a.jpg"
        (failLoad "a.jpg" 0 (getTexture "a.jpg" emptyTextureCache).2)).2.fetchesStarted
      = (failLoad "a.jpg" 0
          (getTexture "a.jpg" emptyTextureCache).2).fetchesStarted ++ ["a.jpg"] :=
  failed_fetch_retries "a.jpg" (getTexture "a.jpg" emptyTextureCache).2 0
    (by decide) (by decide)

/-! ### Claim C7 — position generation determinism -/

/-- C7 counterexample: with the `float` pattern (one slot, default spread and
height), two evaluations of the `photoPositions` memo under identical
`(pattern, settings, slot count)` arguments but different ambient
`Math.random()` streams produce different positions — the projection is not
a function of its stated arguments alone. -/
theorem float_nondeterminism_counterexample :
    photoPositions ⟨1, 1, 0, 1, "float", none⟩
        ⟨fun _ => 0, fun _ => 0, fun _ => 0, 0⟩ (fun _ => 0)
      ≠ photoPositions ⟨1, 1, 0, 1, "float", none⟩
          ⟨fun _ => 0, fun _ => 0, fun _ => 0, 0⟩ (fun _ => 1 / 2) := by
  have hL : ∀ r : Nat → ℚ,
      photoPositions ⟨1, 1, 0, 1, "float", none⟩
          ⟨fun _ => 0, fun _ => 0, fun _ => 0, 0⟩ r
        = [floatEntry ⟨fun _ => 0, fun _ => 0, fun _ => 0, 0⟩ 25 30 r 0] := by
    intro r
    unfold photoPositions
    rw [if_neg (by decide), if_neg (by decide), if_neg (by decide),
      if_pos (by decide)]
    rfl
  intro h
  rw [hL, hL] at h
  have hx := congrArg (fun l => (l.map PosEntry.x).headD 0) h
  simp only [List.map_cons, List.map_nil, List.headD_cons, floatEntry] at hx
  norm_num at hx

/-- C7 (amended).  Position generation determinism holds for the `grid`,
`spiral` and `wave` patterns and the default fallback: their output depends
only on the settings, the slot count and the fixed `Math` functions, not on
the `Math.random()` stream; the `float` pattern consumes the stream and is
exempt. -/
theorem position_determinism (s : SceneSettings) (m : MathFns)
    (rand1 rand2 : Nat → ℚ) (hfl : s.animationPattern ≠ "float") :
    photoPositions s m rand1 = photoPositions s m rand2 := by
  unfold photoPositions
  split_ifs with h1 h2 h3 <;> rfl

/-- Witness for the amended C7: the 2-slot grid layout agrees under two
different random streams. -/
theorem position_determinism_witness :
    photoPositions ⟨2, 1, 0, 1, "grid", none⟩
        ⟨fun q => q, fun q => q, fun q => q, 3⟩ (fun _ => 0)
      = photoPositions ⟨2, 1, 0, 1, "grid", none⟩
          ⟨fun q => q, fun q => q, fun q => q, 3⟩ (fun _ => 7) :=
  position_determinism ⟨2, 1, 0, 1, "grid", none⟩
    ⟨fun q => q, fun q => q, fun q => q, 3⟩ (fun _ => 0) (fun _ => 7)
    (by decide)
